import Mathlib

/-!
Shallow embedding of the per-load price-negotiation core of the repository.

The negotiation core lives in two source files:
* `src/src/main.py` — the live application (deterministic concession engine);
* `src/src/mainnegote_works2.py` — an older variant (randomized concession,
  booking persistence on acceptance).

Prices are modelled as rationals; Python's `round` (banker's rounding,
round-half-to-even) is modelled by `pyRound`.  Message strings and response
fields not used by any negotiation decision are omitted.
-/

namespace Negotiation

/-- Python's built-in `round` on a number: round half to even, returning an
integer (as Python's one-argument `round` does). -/
def pyRound (q : ℚ) : ℤ :=
  if q - ⌊q⌋ < 1/2 then ⌊q⌋
  else if 1/2 < q - ⌊q⌋ then ⌊q⌋ + 1
  else if ⌊q⌋ % 2 = 0 then ⌊q⌋ else ⌊q⌋ + 1

theorem pyRound_le_add_half (q : ℚ) : (pyRound q : ℚ) ≤ q + 1/2 := by
  unfold pyRound
  have hf : (⌊q⌋ : ℚ) ≤ q := Int.floor_le q
  split
  · linarith
  · split
    · rename_i h1 h2
      push_cast
      linarith
    · split
      · linarith
      · rename_i h1 h2 h3
        have : q - (⌊q⌋ : ℚ) = 1/2 := le_antisymm (not_lt.mp h2) (not_lt.mp h1)
        push_cast
        linarith

theorem sub_half_le_pyRound (q : ℚ) : q - 1/2 ≤ (pyRound q : ℚ) := by
  unfold pyRound
  have hf : q - 1 < (⌊q⌋ : ℚ) := Int.sub_one_lt_floor q
  split
  · rename_i h1
    linarith
  · split
    · rename_i h1 h2
      push_cast
      linarith
    · split
      · rename_i h1 h2 h3
        have : q - (⌊q⌋ : ℚ) = 1/2 := le_antisymm (not_lt.mp h2) (not_lt.mp h1)
        linarith
      · rename_i h1 h2 h3
        have : q - (⌊q⌋ : ℚ) = 1/2 := le_antisymm (not_lt.mp h2) (not_lt.mp h1)
        push_cast
        linarith

/-- If `x` is strictly above `m - 1/2` then it rounds to at least `m`. -/
theorem pyRound_ge_of_gt (x : ℚ) (m : ℤ) (h : (m : ℚ) - 1/2 < x) :
    m ≤ pyRound x := by
  have h1 : (m : ℚ) - 1 < (pyRound x : ℚ) := by
    have := sub_half_le_pyRound x
    linarith
  have h2 : m - 1 < pyRound x := by exact_mod_cast h1
  omega

/-- Maximum number of negotiation attempts per load (both source files). -/
def MAX_NEGOTIATION_EXCHANGES : ℕ := 3

/-- The fields of a `Load` record consulted by the negotiation core
(`load_id` and `loadboard_rate`; the remaining columns — origin, destination,
equipment, dates, … — never influence a negotiation decision and are
omitted). -/
structure Load where
  load_id : String
  loadboard_rate : Option ℚ
deriving DecidableEq, Repr

/-- In-memory state per `load_id` tracking attempts and latest agent offer. -/
structure NegotiationState where
  attempts : ℕ
  last_agent_offer : Option ℚ
deriving DecidableEq, Repr

/-- The global `NEGOTIATION_STATE` dictionary, as a map from load ids. -/
abbrev Store := String → Option NegotiationState

def Store.set (s : Store) (k : String) (v : NegotiationState) : Store :=
  fun k' => if k' = k then some v else s k'

/-- `dict.pop(k, None)`: delete the key, a no-op when absent. -/
def Store.pop (s : Store) (k : String) : Store :=
  fun k' => if k' = k then none else s k'

def Store.empty : Store := fun _ => none

/-- How the repository read (the Supabase lookup plus `Load.model_validate`)
can end, from the controller's point of view. -/
inductive FetchResult
  | ok (load : Load)
  | notFound
  | dbError
  | invalid
deriving DecidableEq, Repr

/-- The HTTP error kinds the controller raises. -/
inductive HttpError
  | badGateway
  | notFound
  | internalError
deriving DecidableEq, Repr

/-- Caller-facing outcome classification of a response. -/
inductive Outcome
  | accepted
  | countered
  | limitReached
deriving DecidableEq, Repr

namespace Main

/-- `NegotiationResponse` of `src/src/main.py` (`load_booked` is the string
`"Y"`/`"N"`, modelled as a Bool; the human-readable `message` carries no
decision content and is omitted). -/
structure NegotiationResponse where
  load_id : String
  load_booked : Bool
  counter_offer : Option ℚ
  remaining_attempts : ℤ
deriving DecidableEq, Repr

/-- Outcome of a response: booked means accepted; an explicit counter offer
means countered; otherwise the limit was reached. -/
def NegotiationResponse.outcome (r : NegotiationResponse) : Outcome :=
  if r.load_booked then .accepted
  else if r.counter_offer.isSome then .countered
  else .limitReached

/-- The agent's threshold/counter computation of `run_negotiation_logic`
(`src/src/main.py` lines 193–199), producing the Python `int` from `round`. -/
def agent_offer_calc (agent_original_offer : ℚ) (attempt_index : ℕ)
    (agent_last_offer : Option ℚ) : ℤ :=
  if attempt_index = 0 then
    pyRound (agent_original_offer * 0.97)
  else
    let baseline := agent_last_offer.getD agent_original_offer
    pyRound ((agent_original_offer + baseline) / 2)

/-- `run_negotiation_logic` of `src/src/main.py` (lines 178–223): returns the
agent's response and the offer it will carry forward. -/
def run_negotiation_logic (load : Option Load) (carrier_offer : ℚ)
    (load_id : String) (attempt_index : ℕ) (agent_last_offer : Option ℚ) :
    NegotiationResponse × ℚ :=
  let agent_original_offer : ℚ :=
    match load with
    | some l =>
      match l.loadboard_rate with
      | some rate => rate
      | none => carrier_offer
    | none => carrier_offer
  let agent_new_offer : ℤ :=
    agent_offer_calc agent_original_offer attempt_index agent_last_offer
  if (agent_new_offer : ℚ) ≤ carrier_offer then
    (⟨load_id, true, none, 0⟩, (agent_new_offer : ℚ))
  else
    (⟨load_id, false, some (agent_new_offer : ℚ), 0⟩, (agent_new_offer : ℚ))

/-- Result of one `/negotiate` call in `src/src/main.py`: the HTTP result,
the global state dictionary afterwards, and how many repository reads the
call performed. -/
structure CallOut where
  result : Except HttpError NegotiationResponse
  store : Store
  readCalls : ℕ

/-- `negotiate` of `src/src/main.py` (lines 232–307).  The Supabase lookup is
abstracted by the `fetch` argument. -/
def negotiate (fetch : FetchResult) (load_id : String) (carrier_offer : ℚ)
    (store : Store) : CallOut :=
  let state := (store load_id).getD ⟨0, none⟩
  let store1 := if (store load_id).isSome then store
                else store.set load_id ⟨0, none⟩
  if MAX_NEGOTIATION_EXCHANGES ≤ state.attempts then
    { result := .ok ⟨load_id, false, none, 0⟩, store := store1, readCalls := 0 }
  else
    match fetch with
    | .dbError =>
        { result := .error .badGateway, store := store1, readCalls := 1 }
    | .notFound =>
        { result := .error .notFound, store := store1, readCalls := 1 }
    | .invalid =>
        { result := .error .internalError, store := store1, readCalls := 1 }
    | .ok load =>
        let pair := run_negotiation_logic (some load) carrier_offer load_id
          state.attempts state.last_agent_offer
        let state' : NegotiationState := ⟨state.attempts + 1, some pair.2⟩
        let store2 := store1.set load_id state'
        let remaining : ℤ :=
          (MAX_NEGOTIATION_EXCHANGES : ℤ) - (state'.attempts : ℤ)
        let resp := { pair.1 with remaining_attempts := max remaining 0 }
        if resp.load_booked then
          { result := .ok resp, store := store2.pop load_id, readCalls := 1 }
        else if remaining ≤ 0 then
          { result := .ok resp,
            store := store2.set load_id
              ⟨MAX_NEGOTIATION_EXCHANGES, state'.last_agent_offer⟩,
            readCalls := 1 }
        else
          { result := .ok resp, store := store2, readCalls := 1 }

/-- A sequence of `/negotiate` calls for one load id, threading the state
dictionary, collecting the per-call outputs. -/
def runTrace (load_id : String) (store : Store) :
    List (FetchResult × ℚ) → List CallOut
  | [] => []
  | (f, c) :: rest =>
      let out := negotiate f load_id c store
      out :: runTrace load_id out.store rest

end Main

namespace W2

/-- `NegotiationResponse` of `src/src/mainnegote_works2.py` (the comment on
the source field reads: `agreed_price: float  # -1 means no agreement
reached`; `remaining_attempts` defaults to 3; the `message` string is
omitted). -/
structure NegotiationResponse where
  load_id : String
  load_booked : Bool
  carrier_offer : ℚ
  agent_new_offer : ℚ
  agreed_price : ℚ
  remaining_attempts : ℤ
deriving DecidableEq, Repr

/-- `run_negotiation_logic` of `src/src/mainnegote_works2.py` (lines
133–210).  The call `random.uniform(1, load.loadboard_rate * 0.02)` is
modelled by the explicit argument `random_number`.  On rounds after the
first, the source dereferences `load.loadboard_rate` and adds
`agent_last_offer` without a `None` guard, so those calls raise a
`TypeError` when either is absent; that crash is modelled as `none`. -/
def run_negotiation_logic (load : Option Load) (carrier_offer : ℚ)
    (load_id : String) (attempt_index : ℕ) (agent_last_offer : Option ℚ)
    (random_number : ℚ) : Option (NegotiationResponse × ℚ) :=
  let agent_original_offer : ℚ :=
    match load with
    | some l =>
      match l.loadboard_rate with
      | some rate => rate
      | none => carrier_offer
    | none => carrier_offer
  let offer? : Option ℤ :=
    if attempt_index = 0 then
      some (pyRound (agent_original_offer * 0.97))
    else
      match load with
      | none => none
      | some l =>
        match l.loadboard_rate with
        | none => none
        | some _ =>
          match agent_last_offer with
          | none => none
          | some last =>
              some (pyRound ((agent_original_offer + last + random_number) / 2))
  match offer? with
  | none => none
  | some agent_new_offer =>
    if (agent_new_offer : ℚ) ≤ carrier_offer then
      some (⟨load_id, true, carrier_offer, -1, carrier_offer, 0⟩,
            (agent_new_offer : ℚ))
    else
      some (⟨load_id, false, carrier_offer, (agent_new_offer : ℚ), -1,
             (MAX_NEGOTIATION_EXCHANGES : ℤ) - (attempt_index : ℤ) - 1⟩,
            (agent_new_offer : ℚ))

/-- Result of one `/negotiate` call in `src/src/mainnegote_works2.py`:
`result = none` models an uncaught engine `TypeError`; `bookingCalls`
counts invocations of `update_load_booked`. -/
structure CallOut where
  result : Option (Except HttpError NegotiationResponse)
  store : Store
  bookingCalls : ℕ

/-- `negotiate` of `src/src/mainnegote_works2.py` (lines 218–293).  The
`fetch_load` read is abstracted by `fetch`; `bookingFails` tells whether
`update_load_booked` would raise. -/
def negotiate (fetch : FetchResult) (bookingFails : Bool) (random_number : ℚ)
    (load_id : String) (carrier_offer : ℚ) (store : Store) : CallOut :=
  let state := (store load_id).getD ⟨0, none⟩
  let store1 := if (store load_id).isSome then store
                else store.set load_id ⟨0, none⟩
  if MAX_NEGOTIATION_EXCHANGES ≤ state.attempts then
    { result := some (.ok ⟨load_id, false, carrier_offer, -1, carrier_offer, 3⟩),
      store := store1, bookingCalls := 0 }
  else
    match fetch with
    | .dbError =>
        { result := some (.error .badGateway), store := store1, bookingCalls := 0 }
    | .notFound =>
        { result := some (.error .notFound), store := store1, bookingCalls := 0 }
    | .invalid =>
        { result := some (.error .internalError), store := store1,
          bookingCalls := 0 }
    | .ok load =>
        match run_negotiation_logic (some load) carrier_offer load_id
          state.attempts state.last_agent_offer random_number with
        | none => { result := none, store := store1, bookingCalls := 0 }
        | some pair =>
          let state' : NegotiationState := ⟨state.attempts + 1, some pair.2⟩
          let store2 := store1.set load_id state'
          let remaining : ℤ :=
            (MAX_NEGOTIATION_EXCHANGES : ℤ) - (state'.attempts : ℤ)
          let resp := { pair.1 with remaining_attempts := max remaining 0 }
          if resp.load_booked then
            let store3 := store2.pop load_id
            if bookingFails then
              { result := some (.error .badGateway), store := store3,
                bookingCalls := 1 }
            else
              { result := some (.ok resp), store := store3, bookingCalls := 1 }
          else if remaining ≤ 0 then
            { result := some (.ok resp),
              store := store2.set load_id
                ⟨MAX_NEGOTIATION_EXCHANGES, state'.last_agent_offer⟩,
              bookingCalls := 0 }
          else
            { result := some (.ok resp), store := store2, bookingCalls := 0 }

end W2

/-- The spec's §4.2 engine contract, written from the spec's words alone
(for the refinement claim C1): `decide(original_price, carrier_offer,
attempt_index, last_agent_offer) → (agent_offer, accepted)` with the
first-round discount, the midpoint concession afterwards, and acceptance
iff the carrier's offer meets the agent's offer. -/
def decideSpec (original_price carrier_offer : ℚ) (attempt_index : ℕ)
    (last_agent_offer : Option ℚ) : ℤ × Bool :=
  let agent_offer : ℤ :=
    if attempt_index = 0 then pyRound (original_price * 0.97)
    else pyRound ((original_price + last_agent_offer.getD original_price) / 2)
  (agent_offer, decide ((agent_offer : ℚ) ≤ carrier_offer))

/-- The agent-offer sequence produced by the baseline deterministic engine
on a load with original price `P`: round `0` uses the first-round formula,
round `n+1` feeds round `n`'s offer back as `last_agent_offer`. -/
def offerSeqZ (P : ℚ) : ℕ → ℤ
  | 0 => Main.agent_offer_calc P 0 none
  | n + 1 => Main.agent_offer_calc P (n + 1) (some ((offerSeqZ P n : ℤ) : ℚ))

theorem main_logic_spec (load : Load) (c : ℚ) (lid : String) (a : ℕ)
    (last : Option ℚ) :
    Main.run_negotiation_logic (some load) c lid a last =
      (if ((Main.agent_offer_calc (load.loadboard_rate.getD c) a last : ℤ) : ℚ) ≤ c
       then (⟨lid, true, none, 0⟩,
             ((Main.agent_offer_calc (load.loadboard_rate.getD c) a last : ℤ) : ℚ))
       else (⟨lid, false,
              some ((Main.agent_offer_calc (load.loadboard_rate.getD c) a last : ℤ) : ℚ), 0⟩,
             ((Main.agent_offer_calc (load.loadboard_rate.getD c) a last : ℤ) : ℚ))) := by
  obtain ⟨lid2, rate⟩ := load
  cases rate <;> rfl

theorem main_negotiate_at_limit (f : FetchResult) (lid : String) (c : ℚ)
    (store : Store) (st : NegotiationState) (hget : store lid = some st)
    (hmax : MAX_NEGOTIATION_EXCHANGES ≤ st.attempts) :
    Main.negotiate f lid c store
      = { result := .ok ⟨lid, false, none, 0⟩, store := store, readCalls := 0 } := by
  simp [Main.negotiate, hget, hmax]

theorem main_negotiate_error (f : FetchResult) (e : HttpError) (lid : String)
    (c : ℚ) (store : Store) (k : ℕ) (lo : Option ℚ)
    (heff : (store lid).getD ⟨0, none⟩ = ⟨k, lo⟩)
    (hk : k < MAX_NEGOTIATION_EXCHANGES)
    (hfe : (f = .notFound ∧ e = .notFound) ∨ (f = .dbError ∧ e = .badGateway)
            ∨ (f = .invalid ∧ e = .internalError)) :
    Main.negotiate f lid c store
      = { result := .error e,
          store := if (store lid).isSome then store else store.set lid ⟨0, none⟩,
          readCalls := 1 } := by
  have hk' : ¬ MAX_NEGOTIATION_EXCHANGES ≤ k := by omega
  rcases hfe with ⟨h1, h2⟩ | ⟨h1, h2⟩ | ⟨h1, h2⟩ <;> subst h1 <;> subst h2 <;>
    simp [Main.negotiate, heff, hk']

theorem main_negotiate_cases (load : Load) (lid : String) (c : ℚ)
    (store : Store) (k : ℕ) (lo : Option ℚ)
    (heff : (store lid).getD ⟨0, none⟩ = ⟨k, lo⟩)
    (hk : k < MAX_NEGOTIATION_EXCHANGES) :
    (Main.negotiate (.ok load) lid c store).readCalls = 1 ∧
    (((Main.negotiate (.ok load) lid c store).result
         = .ok ⟨lid, true, none, (MAX_NEGOTIATION_EXCHANGES : ℤ) - (k + 1 : ℕ)⟩
       ∧ ((Main.agent_offer_calc (load.loadboard_rate.getD c) k lo : ℤ) : ℚ) ≤ c
       ∧ (Main.negotiate (.ok load) lid c store).store lid = none)
     ∨ ((Main.negotiate (.ok load) lid c store).result
         = .ok ⟨lid, false,
                some ((Main.agent_offer_calc (load.loadboard_rate.getD c) k lo : ℤ) : ℚ),
                (MAX_NEGOTIATION_EXCHANGES : ℤ) - (k + 1 : ℕ)⟩
       ∧ c < ((Main.agent_offer_calc (load.loadboard_rate.getD c) k lo : ℤ) : ℚ)
       ∧ (Main.negotiate (.ok load) lid c store).store lid
           = some ⟨k + 1, some ((Main.agent_offer_calc (load.loadboard_rate.getD c) k lo : ℤ) : ℚ)⟩)) := by
  have hk' : ¬ MAX_NEGOTIATION_EXCHANGES ≤ k := by omega
  have hmax : max ((MAX_NEGOTIATION_EXCHANGES : ℤ) - ((k : ℤ) + 1)) 0
      = (MAX_NEGOTIATION_EXCHANGES : ℤ) - ((k : ℤ) + 1) := by
    have : (k : ℤ) < 3 := by exact_mod_cast hk
    simp [MAX_NEGOTIATION_EXCHANGES]; omega
  by_cases hacc : ((Main.agent_offer_calc (load.loadboard_rate.getD c) k lo : ℤ) : ℚ) ≤ c
  · refine ⟨?_, .inl ⟨?_, hacc, ?_⟩⟩ <;>
      simp [Main.negotiate, heff, hk', main_logic_spec, hacc, Store.pop, hmax]
  · by_cases hrem : (MAX_NEGOTIATION_EXCHANGES : ℤ) - ((k : ℤ) + 1) ≤ 0
    · have hk2 : k + 1 = MAX_NEGOTIATION_EXCHANGES := by
        simp [MAX_NEGOTIATION_EXCHANGES] at hrem hk ⊢; omega
      refine ⟨?_, .inr ⟨?_, not_le.mp hacc, ?_⟩⟩ <;>
        simp [Main.negotiate, heff, hk', main_logic_spec, hacc, hrem, Store.set, hmax, hk2]
    · refine ⟨?_, .inr ⟨?_, not_le.mp hacc, ?_⟩⟩ <;>
        simp [Main.negotiate, heff, hk', main_logic_spec, hacc, hrem, Store.set, hmax]


/-- Claim C1: the engine decision function matches the baseline reference
definition: for `attempt_index 0` the agent offer is
`round(original_price * 0.97)`; for `attempt_index > 0` the agent offer is
`round((original_price + baseline) / 2)` with `baseline = last_agent_offer`
if present, else `original_price`; the call is accepted iff
`carrier_offer >= agent_offer`; and when accepted the agreed price reported
is the carrier's offer, not the agent's just-computed offer. -/
theorem c1_engine_matches_baseline_spec (original carrier : ℚ) (attempt : ℕ)
    (last : Option ℚ) (lid lid2 : String) :
    ((Main.run_negotiation_logic (some ⟨lid2, some original⟩) carrier lid attempt last).2
        = ((decideSpec original carrier attempt last).1 : ℚ)
      ∧ (Main.run_negotiation_logic (some ⟨lid2, some original⟩) carrier lid attempt last).1.load_booked
        = (decideSpec original carrier attempt last).2)
    ∧ (∀ (load : Load) (r : ℚ) (resp : W2.NegotiationResponse) (offer : ℚ),
        W2.run_negotiation_logic (some load) carrier lid attempt last r
          = some (resp, offer) →
        resp.load_booked = true → resp.agreed_price = carrier) := by
  constructor
  · rw [main_logic_spec]
    unfold decideSpec Main.agent_offer_calc
    dsimp only [Option.getD]
    split
    · split <;> simp_all
    · split <;> simp_all
  · intro load r resp offer h hb
    unfold W2.run_negotiation_logic at h
    dsimp only at h
    split at h
    · exact absurd h (by simp)
    · split at h
      · simp only [Option.some.injEq, Prod.mk.injEq] at h
        obtain ⟨hresp, hoff⟩ := h
        subst hresp
        rfl
      · simp only [Option.some.injEq, Prod.mk.injEq] at h
        obtain ⟨hresp, hoff⟩ := h
        subst hresp
        simp at hb

/-- Witness for C1 at a concrete acceptance: original price 1000, carrier
offer 1000 in round 0; the agent's threshold is 970, the offer is accepted,
and the agreed price reported is the carrier's 1000. -/
theorem c1_engine_matches_baseline_spec_witness :
    (⟨"LD", true, 1000, -1, 1000, 0⟩ : W2.NegotiationResponse).agreed_price = 1000 :=
  (c1_engine_matches_baseline_spec 1000 1000 0 none "LD" "LD2").2
    ⟨"LD2", some 1000⟩ 1 ⟨"LD", true, 1000, -1, 1000, 0⟩ 970
    (by norm_num [W2.run_negotiation_logic, pyRound]) rfl

/-- Claim C2: once `attempts` for a load id has reached
`MAX_NEGOTIATION_EXCHANGES` (= 3), every further `/negotiate` call for that
load id — whatever the repository would answer and however many times it is
repeated — returns outcome `limit_reached` with `remaining_attempts = 0`,
leaves the stored negotiation state exactly as it was, and performs no
repository read (so neither the engine nor the repository is consulted). -/
theorem c2_idempotent_exhaustion (lid : String) (store : Store)
    (st : NegotiationState) (hget : store lid = some st)
    (hmax : MAX_NEGOTIATION_EXCHANGES ≤ st.attempts)
    (inputs : List (FetchResult × ℚ)) :
    ∀ out ∈ Main.runTrace lid store inputs,
      (∃ r, out.result = .ok r ∧ r.outcome = .limitReached
          ∧ r.remaining_attempts = 0)
        ∧ out.store = store ∧ out.readCalls = 0 := by
  induction inputs with
  | nil => intro out h; cases h
  | cons p rest ih =>
      obtain ⟨f, c⟩ := p
      intro out hmem
      rw [Main.runTrace] at hmem
      rw [main_negotiate_at_limit f lid c store st hget hmax] at hmem
      rcases List.mem_cons.mp hmem with h | h
      · subst h
        exact ⟨⟨⟨lid, false, none, 0⟩, rfl, rfl, rfl⟩, rfl, rfl⟩
      · exact ih out h

/-- Witness for C2: a load id with 3 recorded attempts; a repeated call
(with a would-be successful fetch) still yields the limit response with
`remaining_attempts = 0`, an unchanged store, and no repository read. -/
theorem c2_idempotent_exhaustion_witness :
    (∃ r, (Main.negotiate (.ok ⟨"L", some 1000⟩) "L" 500
            (fun k => if k = "L" then some ⟨3, some 993⟩ else none)).result
          = .ok r ∧ r.outcome = .limitReached ∧ r.remaining_attempts = 0)
      ∧ (Main.negotiate (.ok ⟨"L", some 1000⟩) "L" 500
            (fun k => if k = "L" then some ⟨3, some 993⟩ else none)).store
          = (fun k => if k = "L" then some ⟨3, some 993⟩ else none)
      ∧ (Main.negotiate (.ok ⟨"L", some 1000⟩) "L" 500
            (fun k => if k = "L" then some ⟨3, some 993⟩ else none)).readCalls = 0 :=
  c2_idempotent_exhaustion "L"
    (fun k => if k = "L" then some ⟨3, some 993⟩ else none)
    ⟨3, some 993⟩ (by simp) (by decide)
    [(.ok ⟨"L", some 1000⟩, 500)]
    (Main.negotiate (.ok ⟨"L", some 1000⟩) "L" 500
      (fun k => if k = "L" then some ⟨3, some 993⟩ else none))
    (by simp [Main.runTrace])

theorem main_negotiate_countered_step (f : FetchResult) (lid : String) (c : ℚ)
    (store : Store) (k : ℕ) (lo : Option ℚ)
    (heff : (store lid).getD ⟨0, none⟩ = ⟨k, lo⟩)
    (r : Main.NegotiationResponse)
    (hok : (Main.negotiate f lid c store).result = .ok r)
    (hcnt : r.outcome = .countered) :
    k + 1 ≤ MAX_NEGOTIATION_EXCHANGES
      ∧ (∃ o : ℚ, (Main.negotiate f lid c store).store lid = some ⟨k + 1, some o⟩)
      ∧ r.remaining_attempts = (MAX_NEGOTIATION_EXCHANGES : ℤ) - ((k : ℤ) + 1) := by
  by_cases hk : k < MAX_NEGOTIATION_EXCHANGES
  · cases f with
    | ok load =>
        obtain ⟨hreads, hcase⟩ := main_negotiate_cases load lid c store k lo heff hk
        rcases hcase with ⟨hres, hacc, hst⟩ | ⟨hres, hacc, hst⟩
        · rw [hok] at hres
          simp only [Except.ok.injEq] at hres
          subst hres
          simp [Main.NegotiationResponse.outcome] at hcnt
        · rw [hok] at hres
          simp only [Except.ok.injEq] at hres
          subst hres
          refine ⟨hk, ⟨_, hst⟩, ?_⟩
          push_cast
          ring
    | notFound =>
        rw [main_negotiate_error .notFound .notFound lid c store k lo heff hk (by simp)] at hok
        simp at hok
    | dbError =>
        rw [main_negotiate_error .dbError .badGateway lid c store k lo heff hk (by simp)] at hok
        simp at hok
    | invalid =>
        rw [main_negotiate_error .invalid .internalError lid c store k lo heff hk (by simp)] at hok
        simp at hok
  · have hsome : store lid = some ⟨k, lo⟩ := by
      cases hs : store lid with
      | none =>
          rw [hs] at heff
          simp only [Option.getD] at heff
          exfalso
          have : k = 0 := by
            have := congrArg NegotiationState.attempts heff
            simpa using this.symm
          exact hk (by rw [this]; decide)
      | some st => rw [hs] at heff; simpa using heff
    rw [main_negotiate_at_limit f lid c store ⟨k, lo⟩ hsome (not_lt.mp hk)] at hok
    simp only [Except.ok.injEq] at hok
    subst hok
    simp [Main.NegotiationResponse.outcome] at hcnt

theorem c3_aux (lid : String) (inputs : List (FetchResult × ℚ)) :
    ∀ (store : Store) (k : ℕ) (lo : Option ℚ),
      (store lid).getD ⟨0, none⟩ = ⟨k, lo⟩ →
      (∀ out ∈ Main.runTrace lid store inputs,
          ∃ r, out.result = .ok r ∧ r.outcome = .countered) →
      ∀ i, i < inputs.length →
        ∃ out, (Main.runTrace lid store inputs).get? i = some out
          ∧ (∃ st, out.store lid = some st ∧ st.attempts = k + i + 1
               ∧ st.attempts ≤ MAX_NEGOTIATION_EXCHANGES)
          ∧ (∃ r, out.result = .ok r
               ∧ r.remaining_attempts
                   = (MAX_NEGOTIATION_EXCHANGES : ℤ) - ((k : ℤ) + (i : ℤ) + 1)) := by
  induction inputs with
  | nil =>
      intro store k lo heff hc i hi
      simp at hi
  | cons p rest ih =>
      obtain ⟨f, c⟩ := p
      intro store k lo heff hc i hi
      have htr : Main.runTrace lid store ((f, c) :: rest)
          = Main.negotiate f lid c store
            :: Main.runTrace lid (Main.negotiate f lid c store).store rest := by
        simp [Main.runTrace]
      have hhead := hc (Main.negotiate f lid c store)
        (by rw [htr]; exact List.mem_cons_self _ _)
      obtain ⟨r, hok, hcnt⟩ := hhead
      obtain ⟨hk1, ⟨o, hst⟩, hrem⟩ :=
        main_negotiate_countered_step f lid c store k lo heff r hok hcnt
      cases i with
      | zero =>
          refine ⟨Main.negotiate f lid c store, by rw [htr]; rfl, ?_, ?_⟩
          · exact ⟨⟨k + 1, some o⟩, hst, by simp, hk1⟩
          · refine ⟨r, hok, ?_⟩
            rw [hrem]; push_cast; ring
      | succ i =>
          have hc' : ∀ out ∈ Main.runTrace lid
              (Main.negotiate f lid c store).store rest,
              ∃ r, out.result = .ok r ∧ r.outcome = .countered := by
            intro out hmem
            exact hc out (by rw [htr]; exact List.mem_cons_of_mem _ hmem)
          have hi' : i < rest.length := by simpa using hi
          obtain ⟨out, hget, ⟨st, hstm, hatt, hle⟩, ⟨r2, hok2, hrem2⟩⟩ :=
            ih (Main.negotiate f lid c store).store (k + 1) (some o)
              (by rw [hst]; rfl) hc' i hi'
          refine ⟨out, ?_, ⟨st, hstm, by omega, hle⟩, ⟨r2, hok2, ?_⟩⟩
          · rw [htr]
            simpa using hget
          · rw [hrem2]; push_cast; ring

/-- Counterexample to C3 as stated: an accepted call is a
non-limit-reached call, yet after it (call 1 of the sequence) the stored
attempts counter is not 1 — acceptance removes the per-load state
entirely. -/
theorem c3_counterexample :
    (∃ r, (Main.negotiate (.ok ⟨"L", some 1000⟩) "L" 1000 Store.empty).result
          = .ok r ∧ r.outcome ≠ .limitReached)
      ∧ (Main.negotiate (.ok ⟨"L", some 1000⟩) "L" 1000 Store.empty).store "L"
          = none := by
  constructor
  · refine ⟨⟨"L", true, none, 2⟩, ?_, by decide⟩
    norm_num [Main.negotiate, Main.run_negotiation_logic, Main.agent_offer_calc,
      pyRound, Store.empty, Store.set, MAX_NEGOTIATION_EXCHANGES]
  · norm_num [Main.negotiate, Main.run_negotiation_logic, Main.agent_offer_calc,
      pyRound, Store.empty, Store.set, Store.pop, MAX_NEGOTIATION_EXCHANGES]

/-- Claim C3 (amended): for every sequence of N *countered* negotiate calls
on the same load id starting from no stored state, the stored attempts
counter after the i-th call equals i (1-indexed), so attempts increases by
exactly 1 per such call and never decreases, attempts stays within
`0 ≤ attempts ≤ MAX_NEGOTIATION_EXCHANGES`, and the `remaining_attempts`
reported in each response equals `MAX_NEGOTIATION_EXCHANGES - attempts`.
(The original claim quantified over all non-limit-reached calls; an
*accepted* call removes the state instead of storing `i`, and a failed call
does not increment, so the claim is restricted to countered calls.) -/
theorem c3_monotonic_attempts (lid : String) (store : Store)
    (h0 : store lid = none) (inputs : List (FetchResult × ℚ))
    (hc : ∀ out ∈ Main.runTrace lid store inputs,
        ∃ r, out.result = .ok r ∧ r.outcome = .countered) :
    ∀ i, i < inputs.length →
      ∃ out, (Main.runTrace lid store inputs).get? i = some out
        ∧ (∃ st, out.store lid = some st ∧ st.attempts = i + 1
             ∧ st.attempts ≤ MAX_NEGOTIATION_EXCHANGES)
        ∧ (∃ r, out.result = .ok r
             ∧ r.remaining_attempts
                 = (MAX_NEGOTIATION_EXCHANGES : ℤ) - ((i : ℤ) + 1)) := by
  intro i hi
  obtain ⟨out, hget, ⟨st, hstm, hatt, hle⟩, ⟨r, hok, hrem⟩⟩ :=
    c3_aux lid inputs store 0 none (by rw [h0]; rfl) hc i hi
  refine ⟨out, hget, ⟨st, hstm, by omega, hle⟩, ⟨r, hok, ?_⟩⟩
  rw [hrem]; push_cast; ring

/-- Witness for the amended C3: one countered call (ask 1000, offer 800)
starting from an empty store; after call 1 the stored attempts counter is 1
and the response reports 2 remaining attempts. -/
theorem c3_monotonic_attempts_witness :
    ∃ out, (Main.runTrace "L" Store.empty
        [(.ok ⟨"L", some 1000⟩, 800)]).get? 0 = some out
      ∧ (∃ st, out.store "L" = some st ∧ st.attempts = 0 + 1
           ∧ st.attempts ≤ MAX_NEGOTIATION_EXCHANGES)
      ∧ (∃ r, out.result = .ok r
           ∧ r.remaining_attempts
               = (MAX_NEGOTIATION_EXCHANGES : ℤ) - ((0 : ℤ) + 1)) :=
  c3_monotonic_attempts "L" Store.empty rfl [(.ok ⟨"L", some 1000⟩, 800)]
    (by
      intro out hmem
      simp only [Main.runTrace, List.mem_singleton] at hmem
      subst hmem
      refine ⟨⟨"L", false, some 970, 2⟩, ?_, by decide⟩
      norm_num [Main.negotiate, Main.run_negotiation_logic,
        Main.agent_offer_calc, pyRound, Store.empty, Store.set,
        MAX_NEGOTIATION_EXCHANGES])
    0 (by decide)

theorem w2_negotiate_booking_shape (fetch : FetchResult) (bookingFails : Bool)
    (rnd : ℚ) (lid : String) (c : ℚ) (store : Store) :
    ((W2.negotiate fetch bookingFails rnd lid c store).bookingCalls = 0
      ∧ ∀ resp, (W2.negotiate fetch bookingFails rnd lid c store).result
           = some (.ok resp) → resp.load_booked = false)
    ∨ ((W2.negotiate fetch bookingFails rnd lid c store).bookingCalls = 1
        ∧ (W2.negotiate fetch bookingFails rnd lid c store).store lid = none
        ∧ ((bookingFails = true
             ∧ (W2.negotiate fetch bookingFails rnd lid c store).result
                 = some (.error .badGateway))
           ∨ (bookingFails = false
             ∧ ∃ resp, (W2.negotiate fetch bookingFails rnd lid c store).result
                   = some (.ok resp) ∧ resp.load_booked = true))) := by
  unfold W2.negotiate
  dsimp only
  split
  · -- attempt limit already reached
    left
    refine ⟨rfl, fun resp h => ?_⟩
    simp only [Option.some.injEq, Except.ok.injEq] at h
    rw [← h]
  · cases fetch with
    | dbError =>
        left
        exact ⟨rfl, fun resp h => by simp at h⟩
    | notFound =>
        left
        exact ⟨rfl, fun resp h => by simp at h⟩
    | invalid =>
        left
        exact ⟨rfl, fun resp h => by simp at h⟩
    | ok load =>
        dsimp only
        split
        · -- engine raised (TypeError)
          left
          exact ⟨rfl, fun resp h => by simp at h⟩
        · -- engine returned a pair
          split
          · -- accepted: state popped, booking attempted
            rename_i hbooked
            split
            · -- booking update raises
              rename_i hbf
              right
              refine ⟨rfl, by simp [Store.pop], .inl ⟨hbf, rfl⟩⟩
            · -- booking update succeeds
              rename_i hbf
              right
              refine ⟨rfl, by simp [Store.pop], .inr ⟨by simpa using hbf, _, rfl, hbooked⟩⟩
          · -- not accepted
            rename_i hbooked
            split
            · left
              refine ⟨rfl, fun resp h => ?_⟩
              simp only [Option.some.injEq, Except.ok.injEq] at h
              rw [← h]
              simpa using hbooked
            · left
              refine ⟨rfl, fun resp h => ?_⟩
              simp only [Option.some.injEq, Except.ok.injEq] at h
              rw [← h]
              simpa using hbooked

theorem w2_negotiate_accepted (load : Load) (bookingFails : Bool) (rnd : ℚ)
    (lid : String) (c : ℚ) (store : Store) (k : ℕ) (lo : Option ℚ)
    (heff : (store lid).getD ⟨0, none⟩ = ⟨k, lo⟩)
    (hk : k < MAX_NEGOTIATION_EXCHANGES)
    (pair : W2.NegotiationResponse × ℚ)
    (hrl : W2.run_negotiation_logic (some load) c lid k lo rnd = some pair)
    (hb : pair.1.load_booked = true) :
    (W2.negotiate (.ok load) bookingFails rnd lid c store).store lid = none
    ∧ (W2.negotiate (.ok load) bookingFails rnd lid c store).bookingCalls = 1
    ∧ (bookingFails = true →
        (W2.negotiate (.ok load) bookingFails rnd lid c store).result
          = some (.error .badGateway))
    ∧ (bookingFails = false →
        (W2.negotiate (.ok load) bookingFails rnd lid c store).result
          = some (.ok ⟨pair.1.load_id, pair.1.load_booked, pair.1.carrier_offer,
              pair.1.agent_new_offer, pair.1.agreed_price,
              max ((MAX_NEGOTIATION_EXCHANGES : ℤ) - ((k : ℤ) + 1)) 0⟩)) := by
  obtain ⟨resp0, offer⟩ := pair
  obtain ⟨a1, a2, a3, a4, a5, a6⟩ := resp0
  dsimp only at hb
  subst hb
  have hk' : ¬ MAX_NEGOTIATION_EXCHANGES ≤ k := by omega
  cases bookingFails <;>
    simp [W2.negotiate, heff, hk', hrl, Store.pop]

/-- Claim C4: on an accepted outcome the works2 controller removes the
per-load NegotiationState (so a subsequent call for that load id starts a
fresh negotiation) and invokes the repository booking update exactly once;
the booking update is never invoked on any non-accepted outcome; and when
the booking update fails, the failure surfaces as a dependency error (502)
while the in-memory state has already been cleared.  The last conjunct
states the booking-failure behaviour intrinsically: whenever attempts
remain, the fetch succeeds and the engine itself accepts the round, the
state is cleared and the booking update runs exactly once, a failing update
makes the call return the 502 dependency error, and a succeeding update
returns the accepted response. -/
theorem c4_acceptance_clears_state_and_books (fetch : FetchResult)
    (bookingFails : Bool) (rnd : ℚ) (lid : String) (c : ℚ) (store : Store) :
    (∀ resp, (W2.negotiate fetch bookingFails rnd lid c store).result
         = some (.ok resp) → resp.load_booked = true →
       (W2.negotiate fetch bookingFails rnd lid c store).store lid = none
         ∧ (W2.negotiate fetch bookingFails rnd lid c store).bookingCalls = 1)
    ∧ (∀ resp, (W2.negotiate fetch bookingFails rnd lid c store).result
         = some (.ok resp) → resp.load_booked = false →
       (W2.negotiate fetch bookingFails rnd lid c store).bookingCalls = 0)
    ∧ ((W2.negotiate fetch bookingFails rnd lid c store).result = none →
       (W2.negotiate fetch bookingFails rnd lid c store).bookingCalls = 0)
    ∧ (∀ e, (W2.negotiate fetch bookingFails rnd lid c store).result
         = some (.error e) →
       (W2.negotiate fetch bookingFails rnd lid c store).bookingCalls = 0
         ∨ (bookingFails = true ∧ e = .badGateway
             ∧ (W2.negotiate fetch bookingFails rnd lid c store).store lid = none
             ∧ (W2.negotiate fetch bookingFails rnd lid c store).bookingCalls = 1))
    ∧ (∀ (load : Load) (k : ℕ) (lo : Option ℚ)
         (pair : W2.NegotiationResponse × ℚ),
       fetch = .ok load →
       (store lid).getD ⟨0, none⟩ = ⟨k, lo⟩ →
       k < MAX_NEGOTIATION_EXCHANGES →
       W2.run_negotiation_logic (some load) c lid k lo rnd = some pair →
       pair.1.load_booked = true →
       (W2.negotiate fetch bookingFails rnd lid c store).store lid = none
         ∧ (W2.negotiate fetch bookingFails rnd lid c store).bookingCalls = 1
         ∧ (bookingFails = true →
             (W2.negotiate fetch bookingFails rnd lid c store).result
               = some (.error .badGateway))
         ∧ (bookingFails = false →
             (W2.negotiate fetch bookingFails rnd lid c store).result
               = some (.ok ⟨pair.1.load_id, pair.1.load_booked,
                   pair.1.carrier_offer, pair.1.agent_new_offer,
                   pair.1.agreed_price,
                   max ((MAX_NEGOTIATION_EXCHANGES : ℤ) - ((k : ℤ) + 1)) 0⟩))) := by
  have h5 : ∀ (load : Load) (k : ℕ) (lo : Option ℚ)
      (pair : W2.NegotiationResponse × ℚ),
      fetch = .ok load →
      (store lid).getD ⟨0, none⟩ = ⟨k, lo⟩ →
      k < MAX_NEGOTIATION_EXCHANGES →
      W2.run_negotiation_logic (some load) c lid k lo rnd = some pair →
      pair.1.load_booked = true →
      (W2.negotiate fetch bookingFails rnd lid c store).store lid = none
        ∧ (W2.negotiate fetch bookingFails rnd lid c store).bookingCalls = 1
        ∧ (bookingFails = true →
            (W2.negotiate fetch bookingFails rnd lid c store).result
              = some (.error .badGateway))
        ∧ (bookingFails = false →
            (W2.negotiate fetch bookingFails rnd lid c store).result
              = some (.ok ⟨pair.1.load_id, pair.1.load_booked,
                  pair.1.carrier_offer, pair.1.agent_new_offer,
                  pair.1.agreed_price,
                  max ((MAX_NEGOTIATION_EXCHANGES : ℤ) - ((k : ℤ) + 1)) 0⟩)) := by
    intro load k lo pair hf heff hk hrl hb
    subst hf
    exact w2_negotiate_accepted load bookingFails rnd lid c store k lo heff hk
      pair hrl hb
  rcases w2_negotiate_booking_shape fetch bookingFails rnd lid c store with
    ⟨h0, hall⟩ | ⟨h1, hnone, hcase⟩
  · refine ⟨?_, ?_, ?_, ?_, h5⟩
    · intro resp h hb
      rw [hall resp h] at hb
      cases hb
    · intro resp h hb
      exact h0
    · intro h
      exact h0
    · intro e h
      exact .inl h0
  · refine ⟨?_, ?_, ?_, ?_, h5⟩
    · intro resp h hb
      exact ⟨hnone, h1⟩
    · intro resp h hb
      rcases hcase with ⟨hbf, hres⟩ | ⟨hbf, resp', hres', hb'⟩
      · rw [h] at hres
        simp at hres
      · rw [h] at hres'
        simp only [Option.some.injEq, Except.ok.injEq] at hres'
        rw [hres'] at hb
        rw [hb] at hb'
        cases hb'
    · intro h
      rcases hcase with ⟨hbf, hres⟩ | ⟨hbf, resp', hres', hb'⟩
      · rw [h] at hres
        cases hres
      · rw [h] at hres'
        cases hres'
    · intro e h
      rcases hcase with ⟨hbf, hres⟩ | ⟨hbf, resp', hres', hb'⟩
      · rw [h] at hres
        simp only [Option.some.injEq, Except.error.injEq] at hres
        exact .inr ⟨hbf, hres, hnone, h1⟩
      · rw [h] at hres'
        simp at hres'

/-- Witness for C4 at a concrete acceptance (ask 1000, carrier offer 1000
accepted in round 0): with a failing booking update the call returns the 502
dependency error while the stored state is already gone and the update ran
exactly once; with a succeeding update the state is likewise gone and the
update ran exactly once. -/
theorem c4_acceptance_clears_state_and_books_witness :
    ((W2.negotiate (.ok ⟨"L", some 1000⟩) true 1 "L" 1000 Store.empty).store "L"
        = none
      ∧ (W2.negotiate (.ok ⟨"L", some 1000⟩) true 1 "L" 1000
          Store.empty).bookingCalls = 1
      ∧ (W2.negotiate (.ok ⟨"L", some 1000⟩) true 1 "L" 1000 Store.empty).result
          = some (.error .badGateway))
    ∧ ((W2.negotiate (.ok ⟨"L", some 1000⟩) false 1 "L" 1000 Store.empty).store "L"
        = none
      ∧ (W2.negotiate (.ok ⟨"L", some 1000⟩) false 1 "L" 1000
          Store.empty).bookingCalls = 1) := by
  constructor
  · obtain ⟨hst, hbk, hfail, -⟩ :=
      (c4_acceptance_clears_state_and_books (.ok ⟨"L", some 1000⟩) true 1 "L"
          1000 Store.empty).2.2.2.2
        ⟨"L", some 1000⟩ 0 none (⟨"L", true, 1000, -1, 1000, 0⟩, 970)
        rfl rfl (by decide)
        (by norm_num [W2.run_negotiation_logic, pyRound]) rfl
    exact ⟨hst, hbk, hfail rfl⟩
  · exact (c4_acceptance_clears_state_and_books (.ok ⟨"L", some 1000⟩) false 1 "L"
        1000 Store.empty).1
      ⟨"L", true, 1000, -1, 1000, 2⟩
      (by norm_num [W2.negotiate, W2.run_negotiation_logic, pyRound,
        Store.empty, Store.set, Store.pop, MAX_NEGOTIATION_EXCHANGES])
      rfl

/-- Counterexample to C5 as stated: with original price 1000 the baseline
agent offers are 970 (round 0) and 985 (round 1) — matching the spec's own
round-1 example — so the sequence of agent offers is not non-increasing. -/
theorem c5_counterexample :
    offerSeqZ 1000 0 = 970 ∧ offerSeqZ 1000 1 = 985
      ∧ ¬ offerSeqZ 1000 1 ≤ offerSeqZ 1000 0 := by
  have h0 : offerSeqZ 1000 0 = 970 := by
    norm_num [offerSeqZ, Main.agent_offer_calc, pyRound]
  have h1 : offerSeqZ 1000 1 = 985 := by
    rw [show (1 : ℕ) = 0 + 1 from rfl, offerSeqZ, h0]
    norm_num [Main.agent_offer_calc, pyRound]
  exact ⟨h0, h1, by rw [h0, h1]; decide⟩

/-- Claim C5 (amended): under the baseline deterministic concession
algorithm on a load with nonnegative original price, the sequence of agent
offers across successive rounds is monotone — but non-*decreasing*, trending
up toward the original ask (the claim said non-increasing, which the code
refutes already at the spec's own example 970 → 985). -/
theorem c5_offers_non_decreasing (P : ℚ) (hP : 0 ≤ P) (n : ℕ) :
    offerSeqZ P n ≤ offerSeqZ P (n + 1) := by
  have h0eq : offerSeqZ P 0 = pyRound (P * 0.97) := by
    simp [offerSeqZ, Main.agent_offer_calc]
  have hstep : ∀ m, offerSeqZ P (m + 1)
      = pyRound ((P + ((offerSeqZ P m : ℤ) : ℚ)) / 2) := by
    intro m
    simp [offerSeqZ, Main.agent_offer_calc]
  have h97 : (0.97 : ℚ) = 97/100 := by norm_num
  have hinv : ∀ m, ((offerSeqZ P m : ℤ) : ℚ) < P + 1 := by
    intro m
    induction m with
    | zero =>
        rw [h0eq]
        have hb := pyRound_le_add_half (P * 0.97)
        rw [h97] at hb ⊢
        linarith
    | succ m ihm =>
        rw [hstep m]
        have hb := pyRound_le_add_half ((P + ((offerSeqZ P m : ℤ) : ℚ)) / 2)
        linarith
  rw [hstep n]
  exact pyRound_ge_of_gt _ _ (by have := hinv n; linarith)

/-- Witness for the amended C5: with original price 1000 the round-0 offer
970 is at most the round-1 offer 985. -/
theorem c5_offers_non_decreasing_witness :
    (0 : ℚ) ≤ 1000 ∧ offerSeqZ 1000 0 ≤ offerSeqZ 1000 1 :=
  ⟨by norm_num, c5_offers_non_decreasing 1000 (by norm_num) 0⟩

/-- Counterexample to C6 as stated: a NotFound call for a load id with no
prior state does mutate the stored negotiation state — the get-or-create
step inserts a fresh `{attempts: 0, last_agent_offer: none}` entry before
the repository read fails. -/
theorem c6_counterexample :
    (Main.negotiate .notFound "L" 100 Store.empty).store "L" ≠ Store.empty "L"
      ∧ (Main.negotiate .notFound "L" 100 Store.empty).store "L"
          = some ⟨0, none⟩ := by
  constructor <;> decide

/-- Claim C6 (amended): when negotiate fails because the load id has no
backing record (NotFound) or because the repository read fails, the
*effective* negotiation state of that load id — attempts and last agent
offer, reading an absent entry as the fresh default — is exactly what it was
before the call: an entry that existed before the call is untouched (the
whole store is unchanged), entries of other load ids are untouched, and the
failure surfaces as the corresponding error; the only deviation from the
claim as stated is that a first-ever call inserts the fresh default entry
`{attempts: 0, last_agent_offer: none}` before the failure is detected. -/
theorem c6_no_effective_mutation_on_failure (fetch : FetchResult)
    (lid : String) (c : ℚ) (store : Store)
    (hf : fetch = .notFound ∨ fetch = .dbError) :
    (((Main.negotiate fetch lid c store).store lid).getD ⟨0, none⟩
        = (store lid).getD ⟨0, none⟩
      ∧ (∀ st, store lid = some st →
          (Main.negotiate fetch lid c store).store = store)
      ∧ (∀ k, k ≠ lid → (Main.negotiate fetch lid c store).store k = store k))
    ∧ (((store lid).getD ⟨0, none⟩).attempts < MAX_NEGOTIATION_EXCHANGES →
        (fetch = .notFound →
          (Main.negotiate fetch lid c store).result = .error .notFound)
        ∧ (fetch = .dbError →
          (Main.negotiate fetch lid c store).result = .error .badGateway)) := by
  cases hs : store lid with
  | none =>
      have heff : (store lid).getD ⟨0, none⟩ = ⟨0, none⟩ := by rw [hs]; rfl
      have hk : (0 : ℕ) < MAX_NEGOTIATION_EXCHANGES := by decide
      have hstore : ∀ e : HttpError, (fetch = .notFound ∧ e = .notFound)
          ∨ (fetch = .dbError ∧ e = .badGateway)
          ∨ (fetch = .invalid ∧ e = .internalError) →
          (Main.negotiate fetch lid c store).store
            = store.set lid ⟨0, none⟩ := by
        intro e he
        rw [main_negotiate_error fetch e lid c store 0 none heff hk he]
        simp [hs]
      rcases hf with h | h <;> subst h
      · have hst := hstore .notFound (.inl ⟨rfl, rfl⟩)
        refine ⟨⟨?_, ?_, ?_⟩, ?_⟩
        · rw [hst]; simp [hs, Store.set]
        · intro st hst2
          cases hst2
        · intro k hk2
          rw [hst]
          simp [Store.set, hk2]
        · intro hlt
          refine ⟨fun _ => ?_, fun h => nomatch h⟩
          rw [main_negotiate_error .notFound .notFound lid c store 0 none heff hk
            (.inl ⟨rfl, rfl⟩)]
      · have hst := hstore .badGateway (.inr (.inl ⟨rfl, rfl⟩))
        refine ⟨⟨?_, ?_, ?_⟩, ?_⟩
        · rw [hst]; simp [hs, Store.set]
        · intro st hst2
          cases hst2
        · intro k hk2
          rw [hst]
          simp [Store.set, hk2]
        · intro hlt
          refine ⟨(fun h => nomatch h), fun _ => ?_⟩
          rw [main_negotiate_error .dbError .badGateway lid c store 0 none heff hk
            (.inr (.inl ⟨rfl, rfl⟩))]
  | some st =>
      by_cases hk : st.attempts < MAX_NEGOTIATION_EXCHANGES
      · have heff : (store lid).getD ⟨0, none⟩
            = ⟨st.attempts, st.last_agent_offer⟩ := by rw [hs]; rfl
        have hsome : (store lid).isSome = true := by rw [hs]; rfl
        have hstore : ∀ e : HttpError, (fetch = .notFound ∧ e = .notFound)
            ∨ (fetch = .dbError ∧ e = .badGateway)
            ∨ (fetch = .invalid ∧ e = .internalError) →
            (Main.negotiate fetch lid c store).store = store := by
          intro e he
          rw [main_negotiate_error fetch e lid c store st.attempts
            st.last_agent_offer heff hk he]
          simp [hsome]
        rcases hf with h | h <;> subst h
        · have hst := hstore .notFound (.inl ⟨rfl, rfl⟩)
          refine ⟨⟨by rw [hst, hs], fun _ _ => hst, fun k _ => by rw [hst]⟩, ?_⟩
          intro hlt
          refine ⟨fun _ => ?_, fun h => nomatch h⟩
          rw [main_negotiate_error .notFound .notFound lid c store st.attempts
            st.last_agent_offer heff hk (.inl ⟨rfl, rfl⟩)]
        · have hst := hstore .badGateway (.inr (.inl ⟨rfl, rfl⟩))
          refine ⟨⟨by rw [hst, hs], fun _ _ => hst, fun k _ => by rw [hst]⟩, ?_⟩
          intro hlt
          refine ⟨(fun h => nomatch h), fun _ => ?_⟩
          rw [main_negotiate_error .dbError .badGateway lid c store st.attempts
            st.last_agent_offer heff hk (.inr (.inl ⟨rfl, rfl⟩))]
      · have hout := main_negotiate_at_limit fetch lid c store st hs (not_lt.mp hk)
        refine ⟨⟨?_, ?_, ?_⟩, ?_⟩
        · rw [hout, ← hs]
        · intro st2 hst2
          rw [hout]
        · intro k hk2
          rw [hout]
        · intro hlt
          exact absurd hlt hk

/-- Witness for the amended C6: a NotFound call for a load id whose stored
state is `{attempts: 1, last_agent_offer: 970}` leaves the store untouched
and returns the NotFound error. -/
theorem c6_no_effective_mutation_on_failure_witness :
    (((Main.negotiate .notFound "L" 100
          (fun k => if k = "L" then some ⟨1, some 970⟩ else none)).store "L").getD
        ⟨0, none⟩
      = (((fun k => if k = "L" then some ⟨1, some 970⟩ else none) : Store) "L").getD
          ⟨0, none⟩
      ∧ (∀ st, ((fun k => if k = "L" then some ⟨1, some 970⟩ else none) : Store) "L"
            = some st →
          (Main.negotiate .notFound "L" 100
            (fun k => if k = "L" then some ⟨1, some 970⟩ else none)).store
            = (fun k => if k = "L" then some ⟨1, some 970⟩ else none))
      ∧ (∀ k, k ≠ "L" →
          (Main.negotiate .notFound "L" 100
            (fun k => if k = "L" then some ⟨1, some 970⟩ else none)).store k
            = (if k = "L" then some ⟨1, some 970⟩ else none)))
    ∧ (((((fun k => if k = "L" then some ⟨1, some 970⟩ else none) : Store) "L").getD
          ⟨0, none⟩).attempts < MAX_NEGOTIATION_EXCHANGES →
        (FetchResult.notFound = .notFound →
          (Main.negotiate .notFound "L" 100
            (fun k => if k = "L" then some ⟨1, some 970⟩ else none)).result
            = .error .notFound)
        ∧ (FetchResult.notFound = .dbError →
          (Main.negotiate .notFound "L" 100
            (fun k => if k = "L" then some ⟨1, some 970⟩ else none)).result
            = .error .badGateway)) :=
  c6_no_effective_mutation_on_failure .notFound "L" 100
    (fun k => if k = "L" then some ⟨1, some 970⟩ else none) (.inl rfl)

theorem main_negotiate_internal_only_invalid (f : FetchResult) (lid : String)
    (c : ℚ) (store : Store)
    (h : (Main.negotiate f lid c store).result = .error .internalError) :
    f = .invalid := by
  have heff2 : (store lid).getD ⟨0, none⟩
      = ⟨((store lid).getD ⟨0, none⟩).attempts,
         ((store lid).getD ⟨0, none⟩).last_agent_offer⟩ := rfl
  by_cases hatt : MAX_NEGOTIATION_EXCHANGES ≤ ((store lid).getD ⟨0, none⟩).attempts
  · cases hs : store lid with
    | none =>
        rw [hs] at hatt
        exact absurd hatt (by decide)
    | some st =>
        rw [main_negotiate_at_limit f lid c store st hs
          (by rw [hs] at hatt; exact hatt)] at h
        cases h
  · cases f with
    | ok load =>
        obtain ⟨_, hcase⟩ := main_negotiate_cases load lid c store _ _
          heff2 (not_le.mp hatt)
        rcases hcase with ⟨hres, _, _⟩ | ⟨hres, _, _⟩ <;> rw [h] at hres <;>
          cases hres
    | notFound =>
        rw [main_negotiate_error .notFound .notFound lid c store _ _ heff2
          (not_le.mp hatt) (.inl ⟨rfl, rfl⟩)] at h
        simp at h
    | dbError =>
        rw [main_negotiate_error .dbError .badGateway lid c store _ _ heff2
          (not_le.mp hatt) (.inr (.inl ⟨rfl, rfl⟩))] at h
        simp at h
    | invalid => rfl

/-- Claim C7: for a negotiate call on a load whose `loadboard_rate` is
absent, the carrier's own offer is treated as the asking price in the
engine's computation at every attempt index (the engine behaves exactly as
if the asking price were the carrier's offer), and — while attempts remain —
the call completes with a normal accepted or countered outcome. -/
theorem c7_absent_rate_uses_carrier_offer (lid lid2 : String) (c : ℚ)
    (store : Store) (k : ℕ) (lo : Option ℚ)
    (heff : (store lid).getD ⟨0, none⟩ = ⟨k, lo⟩)
    (hk : k < MAX_NEGOTIATION_EXCHANGES) :
    (∀ (attempt : ℕ) (last : Option ℚ),
        Main.run_negotiation_logic (some ⟨lid2, none⟩) c lid attempt last
          = Main.run_negotiation_logic (some ⟨lid2, some c⟩) c lid attempt last)
    ∧ ∃ r, (Main.negotiate (.ok ⟨lid2, none⟩) lid c store).result = .ok r
        ∧ (r.outcome = .accepted ∨ r.outcome = .countered) := by
  constructor
  · intro attempt last
    rfl
  · obtain ⟨_, hcase⟩ := main_negotiate_cases ⟨lid2, none⟩ lid c store k lo heff hk
    rcases hcase with ⟨hres, _, _⟩ | ⟨hres, _, _⟩
    · exact ⟨_, hres, .inl rfl⟩
    · exact ⟨_, hres, .inr rfl⟩

/-- Witness for C7: carrier offer 800 on a load with no loadboard rate and a
fresh store; the round-0 threshold is computed from the carrier's own 800. -/
theorem c7_absent_rate_uses_carrier_offer_witness :
    (∀ (attempt : ℕ) (last : Option ℚ),
        Main.run_negotiation_logic (some ⟨"LD", none⟩) 800 "L" attempt last
          = Main.run_negotiation_logic (some ⟨"LD", some 800⟩) 800 "L" attempt last)
    ∧ ∃ r, (Main.negotiate (.ok ⟨"LD", none⟩) "L" 800 Store.empty).result = .ok r
        ∧ (r.outcome = .accepted ∨ r.outcome = .countered) :=
  c7_absent_rate_uses_carrier_offer "L" "LD" 800 Store.empty 0 none rfl
    (by decide)

/-- Claim C10 (implicit): negotiate performs no validation of the
`carrier_offer` argument — for every rational offer, zero and negative ones
included, a call with attempts remaining and a fetchable load proceeds as a
normal negotiation round: the offer is compared against the computed
threshold (acceptance iff it meets the threshold) and an attempt is consumed
(the stored attempts counter advances, or the state is cleared on
acceptance); a validation (internal) error arises only when the fetched
record cannot be interpreted as a valid Load, never because of the offer
value. -/
theorem c10_no_carrier_offer_validation (load : Load) (lid : String) (c : ℚ)
    (store : Store) (k : ℕ) (lo : Option ℚ)
    (heff : (store lid).getD ⟨0, none⟩ = ⟨k, lo⟩)
    (hk : k < MAX_NEGOTIATION_EXCHANGES) :
    (∃ r, (Main.negotiate (.ok load) lid c store).result = .ok r
        ∧ (r.outcome = .accepted ∨ r.outcome = .countered)
        ∧ (r.outcome = .accepted
            ↔ ((Main.agent_offer_calc (load.loadboard_rate.getD c) k lo : ℤ) : ℚ) ≤ c))
    ∧ ((Main.negotiate (.ok load) lid c store).store lid = none
        ∨ ∃ st, (Main.negotiate (.ok load) lid c store).store lid = some st
            ∧ st.attempts = k + 1)
    ∧ (∀ (f : FetchResult) (lid2 : String) (c2 : ℚ) (store2 : Store),
        (Main.negotiate f lid2 c2 store2).result = .error .internalError →
        f = .invalid) := by
  refine ⟨?_, ?_, fun f lid2 c2 store2 h =>
    main_negotiate_internal_only_invalid f lid2 c2 store2 h⟩
  · obtain ⟨_, hcase⟩ := main_negotiate_cases load lid c store k lo heff hk
    rcases hcase with ⟨hres, hacc, _⟩ | ⟨hres, hacc, _⟩
    · exact ⟨_, hres, .inl rfl, iff_of_true rfl hacc⟩
    · exact ⟨_, hres, .inr rfl, iff_of_false (by simp [Main.NegotiationResponse.outcome]) (not_le.mpr hacc)⟩
  · obtain ⟨_, hcase⟩ := main_negotiate_cases load lid c store k lo heff hk
    rcases hcase with ⟨_, _, hst⟩ | ⟨_, _, hst⟩
    · exact .inl hst
    · exact .inr ⟨_, hst, rfl⟩

/-- Witness for C10 at a negative offer: carrier offer −5 against ask 1000
with a fresh store is processed as a normal countered round. -/
theorem c10_no_carrier_offer_validation_witness :
    (∃ r, (Main.negotiate (.ok ⟨"LD", some 1000⟩) "L" (-5) Store.empty).result
          = .ok r
        ∧ (r.outcome = .accepted ∨ r.outcome = .countered)
        ∧ (r.outcome = .accepted
            ↔ ((Main.agent_offer_calc ((Load.mk "LD" (some 1000)).loadboard_rate.getD (-5))
                  0 none : ℤ) : ℚ) ≤ (-5 : ℚ)))
    ∧ ((Main.negotiate (.ok ⟨"LD", some 1000⟩) "L" (-5) Store.empty).store "L" = none
        ∨ ∃ st, (Main.negotiate (.ok ⟨"LD", some 1000⟩) "L" (-5) Store.empty).store "L"
            = some st ∧ st.attempts = 0 + 1)
    ∧ (∀ (f : FetchResult) (lid2 : String) (c2 : ℚ) (store2 : Store),
        (Main.negotiate f lid2 c2 store2).result = .error .internalError →
        f = .invalid) :=
  c10_no_carrier_offer_validation ⟨"LD", some 1000⟩ "L" (-5) Store.empty 0 none
    rfl (by decide)

/-- Claim C8 (code bug in the works2 source): on a limit_reached outcome the
response sets `agreed_price` to the carrier's offer instead of the −1
"no agreement" sentinel that the field's own source comment (`# -1 means no
agreement reached`) prescribes, and leaves `remaining_attempts` at its
default 3 instead of 0: with stored attempts already 3 and carrier offer
500, the limit response carries `agreed_price = 500`. -/
theorem c8_limit_reached_reports_agreed_price :
    (W2.negotiate (.ok ⟨"LD", some 1000⟩) false 1 "L" 500
        (fun k => if k = "L" then some ⟨3, some 993⟩ else none)).result
      = some (.ok ⟨"L", false, 500, -1, 500, 3⟩) := by
  norm_num [W2.negotiate, MAX_NEGOTIATION_EXCHANGES]

end Negotiation
